import Mathlib

/-!
Verification development for the cdk-ldk-node payment bridge
(`src/lib.rs`).  The Rust source is shallowly embedded: pure
computations become Lean functions, the stateful lifecycle becomes
explicit state passing, the asynchronous loops become fueled
recursion over explicit observation sequences, and machine floats
(`f32`) are modelled exactly as dyadic rationals with IEEE-754
round-to-nearest-even semantics.
-/

deriving instance DecidableEq for Except

namespace CdkLdk

/-! ## IEEE-754 single precision model

`get_payment_quote` computes
`(self.fee_reserve.percent_fee_reserve * u64::from(amount) as f32) as u64`
(src/lib.rs lines 442-450 and 483-491).  `percent_fee_reserve` is an
`f32`; both the integer-to-float conversion and the multiplication
round to nearest, ties to even; the final cast truncates toward zero
and saturates.  Every finite `f32` is a dyadic rational, so we model
float values as `m * 2 ^ e` pairs and rounding exactly. -/

/-- Number of binary digits of a natural number, with explicit fuel so
that the kernel can evaluate it (`bitlen 0 = 0`, `bitlen n = ⌊log2 n⌋ + 1`). -/
def bitlenAux : ℕ → ℕ → ℕ
  | 0, _ => 0
  | fuel + 1, n => if n = 0 then 0 else bitlenAux fuel (n / 2) + 1

/-- Number of binary digits of a natural number. -/
def bitlen (n : ℕ) : ℕ := bitlenAux (n + 1) n

/-- A dyadic rational `m * 2 ^ e`; the exact value of every finite `f32`. -/
structure Dyadic where
  m : ℤ
  e : ℤ
deriving DecidableEq

/-- Round `n / d` (with `d` a power of two) to the nearest integer,
ties to even: the IEEE-754 default rounding applied to a scaled mantissa. -/
def roundNearestEven (n d : ℕ) : ℕ :=
  let q := n / d
  let r := n % d
  if 2 * r < d then q
  else if d < 2 * r then q + 1
  else if q % 2 = 0 then q else q + 1

/-- Round the positive value `m * 2 ^ e` to the nearest `f32`
(round to nearest, ties to even; subnormals at granularity `2 ^ (-149)`;
overflow to infinity represented by the first non-finite magnitude `2 ^ 128`). -/
def f32roundPos (m : ℕ) (e : ℤ) : Dyadic :=
  let E : ℤ := (bitlen m : ℤ) - 1 + e
  let q : ℤ := max E (-126) - 23
  let shift : ℤ := e - q
  let r : ℕ :=
    if 0 ≤ shift then m * 2 ^ shift.toNat
    else roundNearestEven m (2 ^ (-shift).toNat)
  if 128 ≤ (bitlen r : ℤ) - 1 + q then ⟨1, 128⟩ else ⟨(r : ℤ), q⟩

/-- Round the value `m * 2 ^ e` to the nearest `f32`. -/
def f32round (m e : ℤ) : Dyadic :=
  if m = 0 then ⟨0, 0⟩
  else if 0 < m then f32roundPos m.toNat e
  else
    let d := f32roundPos (-m).toNat e
    ⟨-d.m, d.e⟩

/-- Rust `u64 as f32`: convert an unsigned integer to the nearest `f32`. -/
def natToF32 (n : ℕ) : Dyadic := f32round (n : ℤ) 0

/-- `f32` multiplication: the exact product, correctly rounded. -/
def mulF32 (a b : Dyadic) : Dyadic := f32round (a.m * b.m) (a.e + b.e)

/-- Rust `f32 as u64`: truncate toward zero, saturating at `0` and
`u64::MAX` (negative values clamp to `0`, values at or above `2 ^ 64`
clamp to `2 ^ 64 - 1`). -/
def f32CastU64 (d : Dyadic) : ℕ :=
  if d.m ≤ 0 then 0
  else
    let v : ℕ :=
      if 0 ≤ d.e then d.m.toNat * 2 ^ d.e.toNat
      else d.m.toNat / 2 ^ (-d.e).toNat
    min v (2 ^ 64 - 1)

/-- `FeeReserve` from `cdk_common`: an absolute floor (u64 sats) plus a
percentage stored as an `f32`, here kept as its exact dyadic value. -/
structure FeeReserve where
  min_fee_reserve : ℕ
  percent_fee_reserve : Dyadic
deriving DecidableEq

/-- src/lib.rs lines 442-443 (and 483-484):
`(self.fee_reserve.percent_fee_reserve * u64::from(amount) as f32) as u64`. -/
def relative_fee_reserve (fr : FeeReserve) (amount : ℕ) : ℕ :=
  f32CastU64 (mulF32 fr.percent_fee_reserve (natToF32 amount))

/-- src/lib.rs lines 445-450 (and 486-491): the fee computed by
`get_payment_quote`: the larger of the relative reserve and the
absolute `min_fee_reserve`. -/
def get_payment_quote_fee (fr : FeeReserve) (amount : ℕ) : ℕ :=
  let relative := relative_fee_reserve fr amount
  let absolute := fr.min_fee_reserve
  if absolute < relative then relative else absolute

/-- The fee formula exactly as the specification words it:
`max(min_fee_reserve, floor(percent_fee_reserve * amount))` with the
product taken in exact (infinite-precision) arithmetic over the stored
percentage value and the requested amount, and `floor` truncating
toward zero. -/
def claimedFee (fr : FeeReserve) (amount : ℕ) : ℕ :=
  let p := fr.percent_fee_reserve
  let prod : ℤ :=
    if 0 ≤ p.e then p.m * (amount : ℤ) * 2 ^ p.e.toNat
    else Int.fdiv (p.m * (amount : ℤ)) (2 ^ (-p.e).toNat)
  max fr.min_fee_reserve prod.toNat

/-- Claim C1, counterexample: with `min_fee_reserve = 0` and
`percent_fee_reserve = 1.0` (exactly representable in `f32`), the
requested amount `2 ^ 24 + 1 = 16777217` is not representable in `f32`:
the conversion rounds it to `16777216`, so the code returns
`16777216` while the claimed exact formula gives `16777217`. -/
theorem c1_counterexample :
    get_payment_quote_fee ⟨0, ⟨1, 0⟩⟩ 16777217 = 16777216 ∧
    claimedFee ⟨0, ⟨1, 0⟩⟩ 16777217 = 16777217 ∧
    get_payment_quote_fee ⟨0, ⟨1, 0⟩⟩ 16777217 ≠ claimedFee ⟨0, ⟨1, 0⟩⟩ 16777217 := by
  decide

/-- Claim C1 (amended): for every fee-reserve configuration and every
requested amount, the fee computed by `get_payment_quote` equals
`max(min_fee_reserve, trunc(percent_fee_reserve *f32 (amount as f32)))`,
where the conversion and the product are IEEE-754 single-precision
operations (round to nearest, ties to even) and the final truncation is
toward zero; the computation is a pure function of the inputs, hence
deterministic. -/
theorem c1_fee_is_max_with_f32_product (fr : FeeReserve) (amount : ℕ) :
    get_payment_quote_fee fr amount =
      max fr.min_fee_reserve (f32CastU64 (mulF32 fr.percent_fee_reserve (natToF32 amount))) := by
  simp only [get_payment_quote_fee, relative_fee_reserve]
  split <;> omega

/-- Sanity: the fee on the two worked examples of the specification,
with `percent = 0.5` (exactly representable): `amount = 1000` pays the
relative reserve, `amount = 3` pays the absolute floor. -/
theorem fee_examples :
    get_payment_quote_fee ⟨2, ⟨1, -1⟩⟩ 1000 = 500 ∧
    get_payment_quote_fee ⟨2, ⟨1, -1⟩⟩ 3 = 2 := by
  decide

/-! ## Payment data model

Shallow embedding of the `ldk_node` / `cdk_common` data shapes used by
src/lib.rs.  Payment hashes and payment ids are 32-byte values; they are
modelled by their numeric value (`ℕ`), and the hex display string by the
injective decimal rendering `toString`. -/

/-- `cdk_common::CurrencyUnit`, restricted to the variants src/lib.rs uses. -/
inductive CurrencyUnit
  | sat
  | msat
deriving DecidableEq

/-- `ldk_node::payment::PaymentDirection`. -/
inductive PaymentDirection
  | inbound
  | outbound
deriving DecidableEq

/-- `ldk_node::payment::PaymentStatus`. -/
inductive PaymentStatus
  | pending
  | succeeded
  | failed
deriving DecidableEq

/-- `cdk_common::MeltQuoteState`, restricted to the variants src/lib.rs uses. -/
inductive MeltQuoteState
  | unpaid
  | paid
  | pending
  | failed
  | unknown
deriving DecidableEq

/-- `ldk_node::payment::PaymentKind`: the two kinds src/lib.rs interprets,
plus `otherKind` standing for every remaining variant (onchain,
spontaneous, ...), which src/lib.rs handles through wildcard arms. -/
inductive PaymentKind
  | bolt11 (hash : ℕ) (preimage : Option String) (secret : Option String)
  | bolt12Offer (hash : Option ℕ) (preimage : Option String) (secret : Option String)
      (offer_id : String) (payer_note : Option String) (quantity : Option ℕ)
  | otherKind
deriving DecidableEq

/-- `cdk_common::payment::PaymentIdentifier` (spec section 3). -/
inductive PaymentIdentifier
  | paymentHash (h : ℕ)
  | offerId (s : String)
  | customId (s : String)
deriving DecidableEq

/-- `ldk_node::payment::PaymentDetails`: the fields src/lib.rs reads. -/
structure PaymentDetails where
  kind : PaymentKind
  status : PaymentStatus
  direction : PaymentDirection
  amount_msat : Option ℕ
deriving DecidableEq

/-- `cdk_common::payment::WaitPaymentResponse`. -/
structure WaitPaymentResponse where
  payment_identifier : PaymentIdentifier
  payment_amount : ℕ
  unit : CurrencyUnit
  payment_id : String
deriving DecidableEq

/-- `cdk_common::payment::MakePaymentResponse`. -/
structure MakePaymentResponse where
  payment_lookup_id : PaymentIdentifier
  payment_proof : Option String
  status : MeltQuoteState
  total_spent : ℕ
  unit : CurrencyUnit
deriving DecidableEq

/-- The error values src/lib.rs produces on the paths embedded here
(the source wraps most of them in `anyhow!` strings). -/
inductive Err
  | paymentNotFound
  | invalidPaymentDirection
  | unexpectedPaymentKind
  | unsupportedIdentifier
  | amountMissing
  | invalidHex
deriving DecidableEq

/-! ## Incoming-path normalization (src/lib.rs lines 193-266)

`handle_payment_received` receives the event fields, looks the payment
up by its internal id on the node, normalizes the record kind to a
`PaymentIdentifier` and, on success, returns the notification that is
published on the broadcast channel (`None` = nothing published). -/

/-- src/lib.rs lines 193-266: the notification (if any) published for a
payment-received event.  The node payment table is passed as a lookup
function from internal payment id to record. -/
def handle_payment_received (node : ℕ → Option PaymentDetails)
    (payment_id : Option ℕ) (_payment_hash : ℕ) (amount_msat : ℕ) :
    Option WaitPaymentResponse :=
  match payment_id with
  | none => none
  | some pid =>
    let amount_sat := amount_msat / 1000
    match node pid with
    | none => none
    | some details =>
      match details.kind with
      | .bolt11 hash _ _ =>
        some ⟨.paymentHash hash, amount_sat, .sat, toString hash⟩
      | .bolt12Offer (some h) _ _ offer_id _ _ =>
        some ⟨.offerId offer_id, amount_sat, .sat, toString h⟩
      | .bolt12Offer none _ _ _ _ _ => none
      | .otherKind => none

/-! ## Incoming status check (src/lib.rs lines 742-783) -/

/-- src/lib.rs lines 742-783: `check_incoming_payment_status`.
`decodeCustom` models `hex::decode` on the opaque `CustomId` string
(the round trip `decode (encode hash)` for a `PaymentHash` is the
identity and is embedded as such). -/
def check_incoming_payment_status (node : ℕ → Option PaymentDetails)
    (decodeCustom : String → Option ℕ) (ident : PaymentIdentifier) :
    Except Err (List WaitPaymentResponse) :=
  let pid? : Except Err (ℕ × String) :=
    match ident with
    | .paymentHash h => .ok (h, toString h)
    | .customId s =>
      match decodeCustom s with
      | some n => .ok (n, s)
      | none => .error .invalidHex
    | .offerId _ => .error .unsupportedIdentifier
  match pid? with
  | .error e => .error e
  | .ok (pid, pidStr) =>
    match node pid with
    | none => .error .paymentNotFound
    | some details =>
      if details.direction = .outbound then .error .invalidPaymentDirection
      else
        let amount? : Except Err ℕ :=
          if details.status = .succeeded then
            match details.amount_msat with
            | some a => .ok a
            | none => .error .amountMissing
          else .ok 0
        match amount? with
        | .error e => .error e
        | .ok amount => .ok [⟨ident, amount, .msat, pidStr⟩]

/-! ## Outgoing status check (src/lib.rs lines 786-846) -/

/-- src/lib.rs line 794: the filter selecting BOLT11 payments whose
hash equals the looked-up hash. -/
def matchBolt11Hash (p : PaymentDetails) (h : ℕ) : Bool :=
  match p.kind with
  | .bolt11 hash _ _ => hash = h
  | _ => false

/-- src/lib.rs lines 820-824. -/
def statusToMelt : PaymentStatus → MeltQuoteState
  | .pending => .pending
  | .succeeded => .paid
  | .failed => .failed

/-- src/lib.rs lines 813-846: the shared tail of `check_outgoing_payment`
after the record has (or has not) been found. -/
def outgoingResponse (ident : PaymentIdentifier) (found : Option PaymentDetails) :
    Except Err MakePaymentResponse :=
  match found with
  | none => .error .paymentNotFound
  | some details =>
    if details.direction ≠ .outbound then .error .invalidPaymentDirection
    else
      match details.kind with
      | .bolt11 _ preimage _ =>
        match details.amount_msat with
        | none => .error .amountMissing
        | some total =>
          .ok ⟨ident, preimage, statusToMelt details.status, total, .msat⟩
      | _ => .error .unexpectedPaymentKind

/-- src/lib.rs lines 786-846: `check_outgoing_payment`.  `payments` is
the node payment table as a list (for `list_payments_with_filter`),
`node` the point lookup, `decodeCustom` models `hex::decode`. -/
def check_outgoing_payment (payments : List PaymentDetails)
    (node : ℕ → Option PaymentDetails) (decodeCustom : String → Option ℕ)
    (ident : PaymentIdentifier) : Except Err MakePaymentResponse :=
  match ident with
  | .offerId _ => .ok ⟨ident, none, .unknown, 0, .msat⟩
  | .paymentHash h =>
    outgoingResponse ident ((payments.filter fun p => matchBolt11Hash p h).head?)
  | .customId s =>
    match decodeCustom s with
    | none => .error .invalidHex
    | some pid => outgoingResponse ident (node pid)

/-- Claim C5: on the incoming path, a BOLT11 record is normalized to a
`PaymentHash` identifier keyed by its hash; a BOLT12 record to an
`OfferId` identifier keyed by its offer id; a BOLT12 record without a
payment hash is discarded (nothing published); any other payment kind is
not published. -/
theorem c5_identifier_normalization (node : ℕ → Option PaymentDetails)
    (pid : ℕ) (d : PaymentDetails) (hash amt : ℕ) (hnode : node pid = some d) :
    (∀ h pre sec, d.kind = .bolt11 h pre sec →
      handle_payment_received node (some pid) hash amt =
        some ⟨.paymentHash h, amt / 1000, .sat, toString h⟩) ∧
    (∀ h pre sec oid note q, d.kind = .bolt12Offer (some h) pre sec oid note q →
      handle_payment_received node (some pid) hash amt =
        some ⟨.offerId oid, amt / 1000, .sat, toString h⟩) ∧
    (∀ pre sec oid note q, d.kind = .bolt12Offer none pre sec oid note q →
      handle_payment_received node (some pid) hash amt = none) ∧
    (d.kind = .otherKind → handle_payment_received node (some pid) hash amt = none) := by
  refine ⟨?_, ?_, ?_, ?_⟩ <;>
    · intros
      simp_all [handle_payment_received]

/-- Concrete instance of claim C5: a BOLT11 record with hash 77 and a
2500 msat event is published keyed by that hash, with amount 2 sat. -/
theorem c5_witness :
    handle_payment_received
      (fun n => if n = 3 then some ⟨.bolt11 77 none none, .succeeded, .inbound, some 2500⟩ else none)
      (some 3) 9 2500 = some ⟨.paymentHash 77, 2, .sat, "77"⟩ :=
  (c5_identifier_normalization
      (fun n => if n = 3 then some ⟨.bolt11 77 none none, .succeeded, .inbound, some 2500⟩ else none)
      3 ⟨.bolt11 77 none none, .succeeded, .inbound, some 2500⟩ 9 2500 rfl).1
    77 none none rfl

/-- Claim C9: `check_outgoing_payment` on an `OfferId` identifier never
consults the node (the result is the same for every payment table) and
always returns `Ok` with status `Unknown`, no proof, zero spent, unit
`Msat`. -/
theorem c9_offer_id_unknown (payments : List PaymentDetails)
    (node : ℕ → Option PaymentDetails) (decodeCustom : String → Option ℕ)
    (s : String) :
    check_outgoing_payment payments node decodeCustom (.offerId s) =
      .ok ⟨.offerId s, none, .unknown, 0, .msat⟩ := rfl

/-- An inbound BOLT11 payment that is still pending, with a recorded
amount of 5000 msat (counterexample data for claim C7). -/
def c7Details : PaymentDetails := ⟨.bolt11 7 none none, .pending, .inbound, some 5000⟩

/-- A node payment table holding exactly `c7Details` under id 7. -/
def c7Node : ℕ → Option PaymentDetails :=
  fun n => if n = 7 then some c7Details else none

/-- Claim C7, counterexample: on an identifier resolving to an inbound
payment whose recorded amount is 5000 msat but whose status is still
`Pending`, `check_incoming_payment_status` returns a response with
amount `0`, not the recorded amount. -/
theorem c7_counterexample :
    check_incoming_payment_status c7Node (fun _ => none) (.paymentHash 7) =
      .ok [⟨.paymentHash 7, 0, .msat, "7"⟩] ∧
    c7Details.amount_msat = some 5000 := by
  decide

/-- Claim C7 (amended): `check_incoming_payment_status` on an identifier
resolving to an outbound payment fails with the invalid-payment-direction
error; on an inbound payment it returns exactly one `WaitPaymentResponse`,
whose amount equals the recorded amount when the payment status is
`Succeeded` (with a recorded amount present) and `0` otherwise. -/
theorem c7_incoming_status (node : ℕ → Option PaymentDetails)
    (dec : String → Option ℕ) (pid : ℕ) (d : PaymentDetails)
    (hnode : node pid = some d) :
    (d.direction = .outbound →
      check_incoming_payment_status node dec (.paymentHash pid) =
        .error .invalidPaymentDirection) ∧
    (∀ a, d.direction = .inbound → d.status = .succeeded → d.amount_msat = some a →
      check_incoming_payment_status node dec (.paymentHash pid) =
        .ok [⟨.paymentHash pid, a, .msat, toString pid⟩]) ∧
    (d.direction = .inbound → d.status ≠ .succeeded →
      check_incoming_payment_status node dec (.paymentHash pid) =
        .ok [⟨.paymentHash pid, 0, .msat, toString pid⟩]) := by
  refine ⟨?_, ?_, ?_⟩ <;>
    · intros
      simp_all [check_incoming_payment_status]

/-- Concrete instance of claim C7 (amended): a succeeded inbound payment
with recorded amount 5000 msat yields exactly one response carrying 5000. -/
theorem c7_witness :
    check_incoming_payment_status
      (fun n => if n = 7 then some ⟨.bolt11 7 none none, .succeeded, .inbound, some 5000⟩ else none)
      (fun _ => none) (.paymentHash 7) =
      .ok [⟨.paymentHash 7, 5000, .msat, "7"⟩] :=
  (c7_incoming_status
      (fun n => if n = 7 then some ⟨.bolt11 7 none none, .succeeded, .inbound, some 5000⟩ else none)
      (fun _ => none) 7 ⟨.bolt11 7 none none, .succeeded, .inbound, some 5000⟩ rfl).2.1
    5000 rfl rfl rfl

/-- Claim C10: the two observation paths of the same incoming payment use
different units.  Every notification published on the
`wait_any_incoming_payment` stream carries unit `Sat` with the event
msat amount divided by 1000 (truncating), while every response of
`check_incoming_payment_status` carries unit `Msat` with the raw
recorded msat amount when the payment has succeeded and `0` otherwise. -/
theorem c10_unit_mismatch (node : ℕ → Option PaymentDetails)
    (dec : String → Option ℕ) :
    (∀ pid hash amt r, handle_payment_received node pid hash amt = some r →
      r.unit = .sat ∧ r.payment_amount = amt / 1000) ∧
    (∀ ident rs, check_incoming_payment_status node dec ident = .ok rs →
      ∀ r ∈ rs, r.unit = .msat) ∧
    (∀ pid d a, node pid = some d → d.direction = .inbound → d.status = .succeeded →
      d.amount_msat = some a →
      check_incoming_payment_status node dec (.paymentHash pid) =
        .ok [⟨.paymentHash pid, a, .msat, toString pid⟩]) ∧
    (∀ pid d, node pid = some d → d.direction = .inbound → d.status ≠ .succeeded →
      check_incoming_payment_status node dec (.paymentHash pid) =
        .ok [⟨.paymentHash pid, 0, .msat, toString pid⟩]) := by
  refine ⟨?_, ?_, ?_, ?_⟩
  · intro pid hash amt r hr
    match pid with
    | none => simp [handle_payment_received] at hr
    | some p =>
      match hd : node p with
      | none => simp [handle_payment_received, hd] at hr
      | some details =>
        match hk : details.kind with
        | .bolt11 h pre sec =>
          simp [handle_payment_received, hd, hk] at hr
          simp [← hr]
        | .bolt12Offer (some h) pre sec oid note q =>
          simp [handle_payment_received, hd, hk] at hr
          simp [← hr]
        | .bolt12Offer none pre sec oid note q =>
          simp [handle_payment_received, hd, hk] at hr
        | .otherKind =>
          simp [handle_payment_received, hd, hk] at hr
  · intro ident rs hok r hr
    match ident with
    | .offerId s => simp [check_incoming_payment_status] at hok
    | .paymentHash h =>
      match hd : node h with
      | none => simp [check_incoming_payment_status, hd] at hok
      | some details =>
        by_cases hdir : details.direction = .outbound
        · simp [check_incoming_payment_status, hd, hdir] at hok
        · by_cases hst : details.status = .succeeded
          · match ha : details.amount_msat with
            | none => simp [check_incoming_payment_status, hd, hdir, hst, ha] at hok
            | some a =>
              simp [check_incoming_payment_status, hd, hdir, hst, ha] at hok
              simp [← hok] at hr
              simp [hr]
          · simp [check_incoming_payment_status, hd, hdir, hst] at hok
            simp [← hok] at hr
            simp [hr]
    | .customId s =>
      match hdec : dec s with
      | none => simp [check_incoming_payment_status, hdec] at hok
      | some p =>
        match hd : node p with
        | none => simp [check_incoming_payment_status, hdec, hd] at hok
        | some details =>
          by_cases hdir : details.direction = .outbound
          · simp [check_incoming_payment_status, hdec, hd, hdir] at hok
          · by_cases hst : details.status = .succeeded
            · match ha : details.amount_msat with
              | none => simp [check_incoming_payment_status, hdec, hd, hdir, hst, ha] at hok
              | some a =>
                simp [check_incoming_payment_status, hdec, hd, hdir, hst, ha] at hok
                simp [← hok] at hr
                simp [hr]
            · simp [check_incoming_payment_status, hdec, hd, hdir, hst] at hok
              simp [← hok] at hr
              simp [hr]
  · intro pid d a hnode hdir hst ha
    simp_all [check_incoming_payment_status]
  · intro pid d hnode hdir hst
    simp_all [check_incoming_payment_status]

/-- Concrete instance of claim C10: the same 2500 msat payment is
reported as 2 sat on the stream. -/
theorem c10_witness :
    (⟨.paymentHash 77, 2, .sat, "77"⟩ : WaitPaymentResponse).unit = .sat ∧
    (⟨.paymentHash 77, 2, .sat, "77"⟩ : WaitPaymentResponse).payment_amount = 2500 / 1000 :=
  (c10_unit_mismatch
      (fun n => if n = 3 then some ⟨.bolt11 77 none none, .succeeded, .inbound, some 2500⟩ else none)
      (fun _ => none)).1
    (some 3) 9 2500 ⟨.paymentHash 77, 2, .sat, "77"⟩ rfl

/-! ## Outgoing payment poller (src/lib.rs lines 554-582 and 626-653)

`make_payment` polls the node payment table after a send.  The clock is
idealized: each 100 ms sleep advances elapsed time by exactly 100 ms
and the lookups themselves are instantaneous, so the elapsed time at
poll `n` is `100 * n` ms.  The loop breaks out of `Pending` as soon as
`elapsed > 10 s`, which first holds at poll 101; the structural fuel
`102` therefore never runs out (the `error "poll fuel exhausted"` arm
is unreachable from `make_payment_poll`).  `lookup n` is the node
payment record observed at poll `n`. -/

/-- One polling iteration of `make_payment` (both the BOLT11 and the
BOLT12 loop have this exact body): not found fails immediately,
`Succeeded` and `Failed` are terminal, `Pending` returns once the
deadline is exceeded and otherwise sleeps 100 ms and repeats. -/
def pollGo (lookup : ℕ → Option PaymentDetails) :
    ℕ → ℕ → Except String (MeltQuoteState × PaymentDetails)
  | 0, _ => .error "poll fuel exhausted"
  | fuel + 1, n =>
    match lookup n with
    | none => .error "Payment not found"
    | some d =>
      match d.status with
      | .succeeded => .ok (.paid, d)
      | .failed => .ok (.failed, d)
      | .pending =>
        if 10000 < n * 100 then .ok (.pending, d)
        else pollGo lookup fuel (n + 1)

/-- src/lib.rs lines 554-582: the status-polling loop of `make_payment`,
started at elapsed time zero. -/
def make_payment_poll (lookup : ℕ → Option PaymentDetails) :
    Except String (MeltQuoteState × PaymentDetails) :=
  pollGo lookup 102 0

/-- Unfolding equation of `pollGo` for positive fuel. -/
theorem pollGo_succ (lookup : ℕ → Option PaymentDetails) (fuel n : ℕ) :
    pollGo lookup (fuel + 1) n =
      match lookup n with
      | none => .error "Payment not found"
      | some d =>
        match d.status with
        | .succeeded => .ok (.paid, d)
        | .failed => .ok (.failed, d)
        | .pending =>
          if 10000 < n * 100 then .ok (.pending, d)
          else pollGo lookup fuel (n + 1) := rfl

/-- If every poll observes a pending record, the loop runs to poll 101
(the first poll past the 10 s deadline) and returns `Pending` with the
record observed there. -/
theorem pollGo_all_pending (lookup : ℕ → Option PaymentDetails)
    (r : ℕ → PaymentDetails) (hl : ∀ n, lookup n = some (r n))
    (hs : ∀ n, (r n).status = .pending) :
    ∀ fuel n, n + fuel = 102 → 0 < fuel →
      pollGo lookup fuel n = .ok (.pending, r 101) := by
  intro fuel
  induction fuel with
  | zero => omega
  | succ f ih =>
    intro n hn _
    simp only [pollGo_succ, hl n, hs n]
    by_cases hc : 10000 < n * 100
    · have hn101 : n = 101 := by omega
      subst hn101
      rw [if_pos hc]
    · have hf : 0 < f := by omega
      rw [if_neg hc]
      exact ih (n + 1) (by omega) hf

/-- After a prefix of pending observations the loop is exactly at the
next poll: polls `0 .. n-1` all observing a pending record advance the
loop (with its fuel) to poll `n`, for every `n` up to poll 101, the
first poll past the deadline. -/
theorem pollGo_skip (lookup : ℕ → Option PaymentDetails) :
    ∀ n : ℕ, n ≤ 101 →
      (∀ k, k < n → ∃ d, lookup k = some d ∧ d.status = .pending) →
      pollGo lookup 102 0 = pollGo lookup (102 - n) n := by
  intro n
  induction n with
  | zero => intro _ _; rfl
  | succ m ih =>
    intro hn hpend
    have hm : m ≤ 101 := by omega
    rw [ih hm (fun k hk => hpend k (by omega))]
    obtain ⟨d, hd, hds⟩ := hpend m (by omega)
    rw [show 102 - m = (101 - m) + 1 from by omega]
    simp only [pollGo_succ, hd, hds]
    rw [if_neg (show ¬ 10000 < m * 100 from by omega)]
    congr 1
    omega

/-- Claim C2: for every sequence of status observations in the polling
loop of `make_payment` — any number of pending polls (necessarily at
most 101, one per 100 ms step up to the 10 s deadline) followed by some
observation: a missing record fails immediately with the
payment-not-found error, a terminal `Succeeded` observation returns
`Paid`, a terminal `Failed` observation returns `Failed`; and if every
observation stays `Pending` the loop polls at 100 ms steps until
elapsed time first exceeds the 10 s deadline (poll 101) and then
returns the non-error status `Pending` together with the last-observed
record, never polling past the deadline. -/
theorem c2_make_payment_poll (lookup : ℕ → Option PaymentDetails) :
    (∀ n, n ≤ 101 →
      (∀ k, k < n → ∃ d, lookup k = some d ∧ d.status = .pending) →
      (lookup n = none → make_payment_poll lookup = .error "Payment not found") ∧
      (∀ d, lookup n = some d → d.status = .succeeded →
        make_payment_poll lookup = .ok (.paid, d)) ∧
      (∀ d, lookup n = some d → d.status = .failed →
        make_payment_poll lookup = .ok (.failed, d))) ∧
    (∀ r : ℕ → PaymentDetails, (∀ n, lookup n = some (r n)) →
      (∀ n, (r n).status = .pending) →
      make_payment_poll lookup = .ok (.pending, r 101)) := by
  refine ⟨?_, ?_⟩
  · intro n hn hpend
    have hskip : make_payment_poll lookup = pollGo lookup ((101 - n) + 1) n := by
      rw [make_payment_poll, pollGo_skip lookup n hn hpend]
      congr 1
      omega
    refine ⟨?_, ?_, ?_⟩
    · intro h
      simp only [hskip, pollGo_succ, h]
    · intro d h hst
      simp only [hskip, pollGo_succ, h, hst]
    · intro d h hst
      simp only [hskip, pollGo_succ, h, hst]
  · intro r hl hs
    exact pollGo_all_pending lookup r hl hs 102 0 rfl (by omega)

/-- A pending outbound record (witness data for claim C2). -/
def c2PendingDetails : PaymentDetails := ⟨.bolt11 5 none none, .pending, .outbound, some 900⟩

/-- A succeeded outbound record (witness data for claim C2). -/
def c2SucceededDetails : PaymentDetails := ⟨.bolt11 5 none none, .succeeded, .outbound, some 900⟩

/-- A payment that is observed pending on the first three polls and
succeeded from then on (witness data for claim C2). -/
def c2Lookup : ℕ → Option PaymentDetails :=
  fun n => if n < 3 then some c2PendingDetails else some c2SucceededDetails

/-- Concrete instance of claim C2: a payment that is pending for three
polls and then succeeds makes the loop return `Paid` well before the
deadline. -/
theorem c2_witness :
    make_payment_poll c2Lookup = .ok (.paid, c2SucceededDetails) :=
  ((c2_make_payment_poll c2Lookup).1 3 (by omega)
      (fun k hk => ⟨c2PendingDetails, by simp [c2Lookup, hk], rfl⟩)).2.1
    c2SucceededDetails (by simp [c2Lookup]) rfl

/-! ## Event ingestion loop (src/lib.rs lines 269-318)

The loop races the cancellation token against `next_event_async`.  A
run of the loop is embedded as the processing of a finite observation
sequence: each element is either the cancellation token firing or a
node event being delivered.  After every delivered event the node is
acknowledged (`event_handled`); the success or failure of that call is
only logged, which the embedding expresses by the acknowledgement
result function not occurring in the loop body at all. -/

/-- `ldk_node::Event`: the payment-received variant src/lib.rs
interprets, plus `otherEvent` for every other variant. -/
inductive NodeEvent
  | paymentReceived (payment_id : Option ℕ) (payment_hash : ℕ) (amount_msat : ℕ)
  | otherEvent
deriving DecidableEq

/-- One observation of the `tokio::select!` race in the loop. -/
inductive LoopInput
  | cancelled
  | event (e : NodeEvent)
deriving DecidableEq

/-- Observable outcome of a run of the event loop: how many times the
node was acknowledged, which notifications were published, and whether
the loop exited (which only cancellation can cause). -/
structure LoopTrace where
  acks : ℕ
  published : List WaitPaymentResponse
  exitedByCancel : Bool
deriving DecidableEq

/-- src/lib.rs lines 276-314: the event handler loop.  `ackOk` gives the
result of each `event_handled` call (indexed by acknowledgement count);
it is deliberately absent from the body, mirroring that the source only
logs it. -/
def handle_events (node : ℕ → Option PaymentDetails) (ackOk : ℕ → Bool) :
    List LoopInput → LoopTrace
  | [] => ⟨0, [], false⟩
  | .cancelled :: _ => ⟨0, [], true⟩
  | .event e :: rest =>
    let pub :=
      match e with
      | .paymentReceived pid h amt => handle_payment_received node pid h amt
      | .otherEvent => none
    let t := handle_events node ackOk rest
    ⟨t.acks + 1, pub.toList ++ t.published, t.exitedByCancel⟩

/-- Claim C6: the event loop only terminates by cancellation (with no
cancellation observation it is still running after any event sequence),
it acknowledges the node exactly once per delivered event — whatever the
event was and whether handling published anything or not — processing
exactly the events delivered before cancellation, and the results of
the acknowledgement calls never influence the run. -/
theorem c6_event_loop (node : ℕ → Option PaymentDetails)
    (ackOk ackOk2 : ℕ → Bool) (inputs : List LoopInput) :
    (LoopInput.cancelled ∉ inputs →
      (handle_events node ackOk inputs).exitedByCancel = false ∧
      (handle_events node ackOk inputs).acks = inputs.length) ∧
    (∀ pre post, inputs = pre ++ .cancelled :: post → LoopInput.cancelled ∉ pre →
      (handle_events node ackOk inputs).exitedByCancel = true ∧
      (handle_events node ackOk inputs).acks = pre.length) ∧
    handle_events node ackOk inputs = handle_events node ackOk2 inputs := by
  refine ⟨?_, ?_, ?_⟩
  case refine_3 =>
    induction inputs with
    | nil => rfl
    | cons i rest ih =>
      match i with
      | .cancelled => rfl
      | .event e => simp [handle_events, ih]
  · intro hno
    induction inputs with
    | nil => exact ⟨rfl, rfl⟩
    | cons i rest ih =>
      match i with
      | .cancelled => simp at hno
      | .event e =>
        have hno' : LoopInput.cancelled ∉ rest := by
          intro hmem
          exact hno (List.mem_cons_of_mem _ hmem)
        have ⟨h1, h2⟩ := ih hno'
        refine ⟨?_, ?_⟩
        · simpa [handle_events] using h1
        · simp [handle_events, h2]
  · intro pre post heq hno
    subst heq
    induction pre with
    | nil => exact ⟨rfl, rfl⟩
    | cons i rest ih =>
      match i with
      | .cancelled => simp at hno
      | .event e =>
        have hno' : LoopInput.cancelled ∉ rest := by
          intro hmem
          exact hno (List.mem_cons_of_mem _ hmem)
        have ⟨h1, h2⟩ := ih hno'
        refine ⟨?_, ?_⟩
        · simpa [handle_events] using h1
        · simp [handle_events] at h2 ⊢
          omega

/-- Concrete instance of claim C6: one payment event followed by
cancellation yields exactly one acknowledgement and a cancelled loop. -/
theorem c6_witness :
    (handle_events (fun _ => none) (fun _ => false)
        [.event (.paymentReceived (some 1) 5 2500), .cancelled]).exitedByCancel = true ∧
    (handle_events (fun _ => none) (fun _ => false)
        [.event (.paymentReceived (some 1) 5 2500), .cancelled]).acks = 1 := by
  have h := (c6_event_loop (fun _ => none) (fun _ => false) (fun _ => false)
      [.event (.paymentReceived (some 1) 5 2500), .cancelled]).2.1
    [.event (.paymentReceived (some 1) 5 2500)] [] rfl (by decide)
  exact ⟨h.1, h.2⟩

/-! ## Payment notification broadcaster (src/lib.rs lines 108-109, 696-712)

`CdkLdkNode::new` creates `tokio::sync::broadcast::channel(8)` and
`wait_any_incoming_payment` serves a `BroadcastStream` over
`receiver.resubscribe()`, whose errors (lag reports) are dropped by
`filter_map`.  The tokio broadcast channel itself lives outside this
repository; following spec section 4.4 it is modelled as a shared
publication history plus a per-subscriber cursor: `resubscribe` starts
the cursor at the current history length, receiving past the capacity
bound jumps the cursor forward to the oldest retained message and
reports a lag (which the stream drops), and otherwise messages are
delivered one at a time in publication order. -/

/-- src/lib.rs line 109: the broadcast channel capacity. -/
def bcChannelCapacity : ℕ := 8

/-- Modelled from the spec: one receive step of a broadcast subscriber
(tokio broadcast `Receiver::recv` is outside this repository; spec
section 4.4 describes its bounded-capacity, lag-dropping semantics).
Returns the received message, if any, and the new cursor. -/
def recvOne (hist : List ℕ) (c : ℕ) : Option ℕ × ℕ :=
  if h : c < hist.length then
    if bcChannelCapacity < hist.length - c then (none, hist.length - bcChannelCapacity)
    else (some (hist.get ⟨c, h⟩), c + 1)
  else (none, c)

/-- Repeated receiving until the subscriber has caught up, with fuel for
structural termination; lag reports contribute no message, mirroring the
`filter_map` of src/lib.rs lines 704-712. -/
def drainGo (hist : List ℕ) : ℕ → ℕ → List ℕ
  | 0, _ => []
  | fuel + 1, c =>
    if (recvOne hist c).2 = c then []
    else (recvOne hist c).1.toList ++ drainGo hist fuel (recvOne hist c).2

/-- Everything a subscriber whose cursor starts at position `s` (the
history length at subscription time) observes from a final history
`hist`. -/
def drain (hist : List ℕ) (s : ℕ) : List ℕ := drainGo hist (hist.length + 1) s

/-- Unfolding equation of `drainGo` for positive fuel. -/
theorem drainGo_succ (hist : List ℕ) (fuel c : ℕ) :
    drainGo hist (fuel + 1) c =
      if (recvOne hist c).2 = c then []
      else (recvOne hist c).1.toList ++ drainGo hist fuel (recvOne hist c).2 := rfl

/-- A subscriber that never falls behind the capacity bound receives
exactly the suffix of the history from its cursor on. -/
theorem drainGo_no_lag (hist : List ℕ) :
    ∀ fuel c, hist.length ≤ c + fuel → hist.length ≤ c + bcChannelCapacity →
      drainGo hist fuel c = hist.drop c := by
  intro fuel
  induction fuel with
  | zero =>
    intro c hf _
    have : hist.drop c = [] := List.drop_eq_nil_of_le (by omega)
    simp [drainGo, this]
  | succ f ih =>
    intro c hf hcap
    by_cases hlt : c < hist.length
    · have hnolag : ¬ bcChannelCapacity < hist.length - c := by
        simp only [bcChannelCapacity] at hcap ⊢
        omega
      have hrecv : recvOne hist c = (some (hist.get ⟨c, hlt⟩), c + 1) := by
        simp [recvOne, hlt, hnolag]
      rw [drainGo_succ, hrecv]
      simp only [Option.toList_some, List.singleton_append]
      rw [if_neg (by omega)]
      rw [ih (c + 1) (by omega) (by simp only [bcChannelCapacity] at hcap ⊢; omega)]
      rw [List.drop_eq_getElem_cons hlt]
      simp
    · have hrecv : recvOne hist c = (none, c) := by
        simp [recvOne, hlt]
      rw [drainGo_succ, hrecv, if_pos rfl]
      exact (List.drop_eq_nil_of_le (by omega)).symm

/-- Claim C8 (amended): the broadcaster capacity is the constant 8;
a subscriber observes, in publication order, exactly the messages
published after the point where it subscribed — in full whenever it
does not fall more than the capacity behind, and in general only the
last-retained window: messages older than `length - 8` are dropped for
a lagging subscriber, and a message published before the subscription
point is never observed. -/
theorem c8_broadcast (hist : List ℕ) (s : ℕ) :
    bcChannelCapacity = 8 ∧
    (hist.length ≤ s + bcChannelCapacity → drain hist s = hist.drop s) ∧
    drain hist s = hist.drop (max s (hist.length - bcChannelCapacity)) := by
  refine ⟨rfl, ?_, ?_⟩
  · intro hcap
    exact drainGo_no_lag hist (hist.length + 1) s (by omega) hcap
  · by_cases hcap : hist.length ≤ s + bcChannelCapacity
    · rw [drain, drainGo_no_lag hist (hist.length + 1) s (by omega) hcap]
      congr 1
      simp only [bcChannelCapacity] at hcap ⊢
      omega
    · have hlt : s < hist.length := by
        simp only [bcChannelCapacity] at hcap
        omega
      have hlag : bcChannelCapacity < hist.length - s := by
        simp only [bcChannelCapacity] at hcap ⊢
        omega
      have hrecv : recvOne hist s = (none, hist.length - bcChannelCapacity) := by
        simp [recvOne, hlt, hlag]
      have hne : ¬ (hist.length - bcChannelCapacity = s) := by
        simp only [bcChannelCapacity] at hcap ⊢
        omega
      rw [drain, drainGo_succ, hrecv]
      simp only [hne, if_false, Option.toList_none, List.nil_append]
      rw [drainGo_no_lag hist hist.length (hist.length - bcChannelCapacity)
            (by simp only [bcChannelCapacity]; omega)
            (by simp only [bcChannelCapacity]; omega)]
      congr 1
      simp only [bcChannelCapacity] at hcap ⊢
      omega

/-- A history of nine messages, one more than the channel capacity
(counterexample data for claim C8). -/
def c8Hist : List ℕ := [0, 1, 2, 3, 4, 5, 6, 7, 8]

/-- Claim C8, counterexample: with capacity 8, a subscriber attached
before nine publications does not receive all nine messages — the
oldest one is dropped — refuting that every subscriber receives exactly
the messages published after it subscribed. -/
theorem c8_counterexample :
    drain c8Hist 0 ≠ c8Hist.drop 0 ∧ drain c8Hist 0 = [1, 2, 3, 4, 5, 6, 7, 8] := by
  decide

/-- Concrete instance of claim C8 (amended): a subscriber at position 0
of a two-message history receives both messages in order. -/
theorem c8_witness :
    drain [10, 20] 0 = ([10, 20] : List ℕ).drop 0 :=
  (c8_broadcast [10, 20] 0).2.1 (by decide)

/-! ## Lifecycle coordinator (src/lib.rs lines 163-190, 720-725, 732-739)

Cancellation tokens are sticky booleans; the wait-invoice active flag
is an atomic boolean.  src/lib.rs lines 721-725 spawn a task that
awaits the wait-invoice token and then stores `false` into the flag:
that store is a separate scheduling step, embedded as `cleanupStep`.
`stop` (lines 170-190) cancels the event token, cancels the management
token (`stop_management_service`, which always returns `Ok`), cancels
the wait-invoice token when the flag reads `true`, and finally stops
the external node.  The external `ldk_node::Node::stop` is outside this
repository and is modelled from the spec (section 8: duplicate stop
calls are safely idempotent per the external contract). -/

/-- The cancellation tokens, the wait-invoice active flag, and the
run state of the external node. -/
structure BridgeState where
  eventsCancelled : Bool
  mgmtCancelled : Bool
  waitCancelled : Bool
  waitActive : Bool
  nodeRunning : Bool
deriving DecidableEq, Fintype

/-- src/lib.rs lines 732-734: read the atomic active flag. -/
def is_wait_invoice_active (s : BridgeState) : Bool := s.waitActive

/-- src/lib.rs lines 737-739: cancel the wait-invoice token. -/
def cancel_wait_invoice (s : BridgeState) : BridgeState :=
  { s with waitCancelled := true }

/-- Modelled from the spec: the external `ldk_node::Node::stop` call
(the node crate is outside this repository); per spec section 8
duplicate stop calls are safely idempotent under the external
contract, so stopping never fails here. -/
def nodeStop (s : BridgeState) : Except String Unit × BridgeState :=
  (.ok (), { s with nodeRunning := false })

/-- src/lib.rs lines 170-190: `stop`.  Cancel the event-handler token;
cancel the management-service token; if the active flag reads `true`,
cancel the wait-invoice token; stop the external node.  The flag store
performed by the spawned cleanup task is NOT part of this call — it
runs as its own scheduling step (`cleanupStep`). -/
def stop (s : BridgeState) : Except String Unit × BridgeState :=
  let s1 := { s with eventsCancelled := true }
  let s2 := { s1 with mgmtCancelled := true }
  let s3 := if is_wait_invoice_active s2 then cancel_wait_invoice s2 else s2
  nodeStop s3

/-- src/lib.rs lines 721-725: the scheduling step of the spawned
cleanup task — once the wait-invoice token is cancelled, store `false`
into the active flag. -/
def cleanupStep (s : BridgeState) : BridgeState :=
  if s.waitCancelled then { s with waitActive := false } else s

/-- Claim C3: `stop` is idempotent — the second of two consecutive calls
does not fail and leaves the state unchanged — and a single call always
runs every step to completion (event token cancelled, management token
cancelled, external node stopped); being a total function, it cannot
panic. -/
theorem c3_stop_idempotent :
    ∀ s : BridgeState,
      (stop s).1 = .ok () ∧
      (stop (stop s).2).1 = .ok () ∧
      (stop (stop s).2).2 = (stop s).2 ∧
      (stop s).2.eventsCancelled = true ∧
      (stop s).2.mgmtCancelled = true ∧
      (stop s).2.nodeRunning = false := by
  decide

/-- A state with a live subscription (active flag set) and a running
node (counterexample data for claim C4). -/
def c4Start : BridgeState := ⟨false, false, false, true, true⟩

/-- Claim C4, counterexample: `stop` reports success while the active
flag still reads `true` — the store of `false` happens in the spawned
cleanup task, which has not yet been scheduled when `stop` returns. -/
theorem c4_counterexample :
    (stop c4Start).1 = .ok () ∧
    is_wait_invoice_active (stop c4Start).2 = true := by
  decide

/-- Claim C4 (amended): cancelling the wait-invoice token drives
`is_wait_invoice_active` to `false` within one scheduling step of the
cleanup task, regardless of whether any notification was published;
likewise, one cleanup-task step after `stop` has reported completion
the flag reads `false` — though at the instant `stop` returns it may
still read `true`. -/
theorem c4_cancel_drives_flag_false :
    ∀ s : BridgeState,
      is_wait_invoice_active (cleanupStep (cancel_wait_invoice s)) = false ∧
      is_wait_invoice_active (cleanupStep (stop s).2) = false := by
  decide

end CdkLdk
